import Mathlib

/-!
Verification of the greenhouse-mcp authenticated request layer.

Shallow embedding of `src/auth.ts` (OAuth2 token manager), `src/client.ts`
(HTTP request/pagination engine) and the routing helper `listEndpoint` of
`src/index.ts`.  Network I/O is modelled by passing the would-be HTTP
response explicitly: each operation receives an oracle `net : Nat → HttpResponse`
giving the response to its n-th outbound call, and reports how many calls it
issued.  JavaScript runtime values that can flow through the untyped parts of
the code (the token cache slot, decoded JSON bodies) are modelled by `JsonVal`
with `Option` for `undefined`; JS truthiness is modelled by `jsTruthy`.
`new Date(x).getTime()` is a JS builtin, modelled by an uninterpreted
parameter `dateMs` (none stands for NaN).  Floating-point numbers are
modelled as integers; percent-decoding of multi-byte UTF-8 escape sequences
and the `new URL` constructor's validity check / normalisation of well-formed
absolute URLs are not modelled (no claim exercises them).
-/

/-- A decoded JSON value (the possible results of `res.json()`). -/
inductive JsonVal : Type where
  | str (s : String)
  | num (n : Int)
  | bool (b : Bool)
  | nullV
  | obj (fields : List (String × JsonVal))
  | arr (elems : List JsonVal)

/-- JS truthiness of an optional runtime value (`none` = `undefined`/absent). -/
def jsTruthy : Option JsonVal → Bool
  | none => false
  | some (JsonVal.str s) => !(s == "")
  | some (JsonVal.num n) => !(n == 0)
  | some (JsonVal.bool b) => b
  | some JsonVal.nullV => false
  | some (JsonVal.obj _) => true
  | some (JsonVal.arr _) => true

/-- JS property access `v.k` on a decoded JSON value (`none` = `undefined`).
Property access on `null` throws and is handled separately by callers. -/
def jsField (v : JsonVal) (k : String) : Option JsonVal :=
  match v with
  | JsonVal.obj fields => (fields.find? (fun p => p.1 = k)).map (fun p => p.2)
  | _ => none

/-- A scalar filter value, mirroring `string | number | boolean` in
`buildUrl`'s parameter record (JS numbers modelled as integers). -/
inductive PrimVal : Type where
  | str (s : String)
  | num (n : Int)
  | bool (b : Bool)
deriving DecidableEq

/-- JS `String(value)` on a scalar filter value. -/
def primToString : PrimVal → String
  | PrimVal.str s => s
  | PrimVal.num n => toString n
  | PrimVal.bool b => if b then "true" else "false"

/-- An HTTP response as observed by the client: status line, raw body text,
the JSON decode of the body (`none` when `res.json()` would throw), and the
`link` header (`none` when absent). -/
structure HttpResponse : Type where
  status : Nat
  statusText : String
  bodyText : String
  bodyJson : Option JsonVal
  linkHeader : Option String

/-- `res.ok`: status in the 2xx range. -/
def respOk (r : HttpResponse) : Bool :=
  decide (200 ≤ r.status ∧ r.status ≤ 299)

/- ------------------------------------------------------------------ -/
/- URL / query-string model (the parts of the WHATWG URL API the code uses) -/
/- ------------------------------------------------------------------ -/

/-- Split a character list at the first occurrence of `sep`; the second
component is `none` when `sep` does not occur. -/
def splitAtFirst (sep : Char) : List Char → List Char × Option (List Char)
  | [] => ([], none)
  | c :: rest =>
    if c = sep then ([], some rest)
    else
      let r := splitAtFirst sep rest
      (c :: r.1, r.2)

/-- Split a character list on every occurrence of `sep`. -/
def splitChar (sep : Char) : List Char → List (List Char)
  | [] => [[]]
  | c :: rest =>
    if c = sep then [] :: splitChar sep rest
    else
      match splitChar sep rest with
      | [] => [[c]]
      | g :: gs => (c :: g) :: gs

/-- Hex digit value of a character, `none` when not a hex digit. -/
def hexVal (c : Char) : Option Nat :=
  if '0' ≤ c ∧ c ≤ '9' then some (c.toNat - 48)
  else if 'A' ≤ c ∧ c ≤ 'F' then some (c.toNat - 55)
  else if 'a' ≤ c ∧ c ≤ 'f' then some (c.toNat - 87)
  else none

/-- `application/x-www-form-urlencoded` decoding: `+` becomes a space and
`%HH` becomes the byte `HH` (single-byte sequences only). -/
def pctDecode : List Char → List Char
  | [] => []
  | '+' :: rest => ' ' :: pctDecode rest
  | '%' :: a :: b :: rest =>
    match hexVal a, hexVal b with
    | some x, some y => Char.ofNat (16 * x + y) :: pctDecode rest
    | _, _ => '%' :: pctDecode (a :: b :: rest)
  | c :: rest => c :: pctDecode rest

/-- Parse a raw query string (without the leading question mark) into an
ordered key/value list, as `URLSearchParams` does: split on ampersands, drop
empty segments, split each segment at the first equals sign, decode both
sides; a segment with no equals sign gets the empty value. -/
def parseQuery (cs : List Char) : List (String × String) :=
  (splitChar '&' cs).filterMap fun part =>
    if part.isEmpty then none
    else
      let kv := splitAtFirst '=' part
      some (String.mk (pctDecode kv.1), String.mk (pctDecode (kv.2.getD [])))

/-- The pieces of a parsed URL the client inspects: everything before the
query, and the ordered query parameter list. -/
structure UrlModel : Type where
  base : String
  query : List (String × String)
deriving DecidableEq

/-- `new URL(s)`: strip the fragment, split at the first question mark, parse
the query part. -/
def newUrlOfString (s : String) : UrlModel :=
  let noFrag := (splitAtFirst '#' s.data).1
  let parts := splitAtFirst '?' noFrag
  { base := String.mk parts.1
    query := match parts.2 with
             | none => []
             | some qs => parseQuery qs }

/-- `url.searchParams.set k v`: replace the first binding of `k` and drop any
later ones, or append when `k` is absent. -/
def setParam : List (String × String) → String → String → List (String × String)
  | [], k, v => [(k, v)]
  | p :: rest, k, v =>
    if p.1 = k then (k, v) :: rest.filter (fun q => q.1 ≠ k)
    else p :: setParam rest k v

/-- UTF-8 bytes of a character. -/
def utf8Bytes (c : Char) : List Nat :=
  let n := c.toNat
  if n < 0x80 then [n]
  else if n < 0x800 then [0xC0 + n / 0x40, 0x80 + n % 0x40]
  else if n < 0x10000 then
    [0xE0 + n / 0x1000, 0x80 + (n / 0x40) % 0x40, 0x80 + n % 0x40]
  else
    [0xF0 + n / 0x40000, 0x80 + (n / 0x1000) % 0x40, 0x80 + (n / 0x40) % 0x40,
     0x80 + n % 0x40]

/-- Uppercase hex digit character for a value below 16. -/
def hexDigitChar (n : Nat) : Char :=
  if n < 10 then Char.ofNat (48 + n) else Char.ofNat (55 + n)

/-- Percent-escape of one byte. -/
def byteHex (n : Nat) : List Char :=
  ['%', hexDigitChar (n / 16), hexDigitChar (n % 16)]

/-- `application/x-www-form-urlencoded` encoding of one character, as
`URLSearchParams.toString` performs it. -/
def encodeChar (c : Char) : List Char :=
  if c.isAlphanum ∨ c = '*' ∨ c = '-' ∨ c = '.' ∨ c = '_' then [c]
  else if c = ' ' then ['+']
  else (utf8Bytes c).flatMap byteHex

/-- Encode a full query component. -/
def encodeComponent (s : String) : String :=
  String.mk (s.data.flatMap encodeChar)

/-- `URLSearchParams.toString`: ampersand-joined `key=value` pairs. -/
def renderQuery (q : List (String × String)) : String :=
  String.intercalate "&" (q.map fun p => encodeComponent p.1 ++ "=" ++ encodeComponent p.2)

/-- `url.toString()` for the modelled pieces. -/
def urlToString (u : UrlModel) : String :=
  u.base ++ (if u.query.isEmpty then "" else "?" ++ renderQuery u.query)

/-- First query parameter value for a key: `url.searchParams.get(k)`. -/
def getQueryParam (urlStr : String) (k : String) : Option String :=
  ((newUrlOfString urlStr).query.find? (fun p => p.1 = k)).map (fun p => p.2)

/- ------------------------------------------------------------------ -/
/- Link header parsing (src/client.ts parseLinkHeader)                 -/
/- ------------------------------------------------------------------ -/

/-- JS regex whitespace class members that occur in link headers. -/
def isJsWhitespace (c : Char) : Bool :=
  c = ' ' ∨ c = '\t' ∨ c = '\n' ∨ c = '\r' ∨ c = '\x0b' ∨ c = '\x0c'

/-- Does `pre` occur at the front of `l`? -/
def matchesFront : List Char → List Char → Bool
  | [], _ => true
  | _ :: _, [] => false
  | a :: as, b :: bs => a = b && matchesFront as bs

/-- The literal tail the regex requires after the angle-bracketed URL. -/
def relNextChars : List Char := 'r' :: 'e' :: 'l' :: '=' :: '\"' :: 'n' :: 'e' :: 'x' :: 't' :: '\"' :: []

/-- Try to match `<([^>]+)>;\s*rel="next"` at the head of the list, returning
the captured group. -/
def linkMatchAt : List Char → Option (List Char)
  | '<' :: rest =>
    let inner := rest.takeWhile (fun c => c ≠ '>')
    match rest.dropWhile (fun c => c ≠ '>') with
    | '>' :: ';' :: tail =>
      if inner.isEmpty then none
      else if matchesFront relNextChars (tail.dropWhile isJsWhitespace) then some inner
      else none
    | _ => none
  | _ => none

/-- Scan left to right for the first position where the pattern matches. -/
def linkScan : List Char → Option (List Char)
  | [] => none
  | c :: rest =>
    match linkMatchAt (c :: rest) with
    | some m => some m
    | none => linkScan rest

/-- `parseLinkHeader` from src/client.ts: `null`/empty header gives `null`,
otherwise the first regex match's captured URL. -/
def parseLinkHeader (header : Option String) : Option String :=
  match header with
  | none => none
  | some h => if h = "" then none else (linkScan h.data).map String.mk

/- ------------------------------------------------------------------ -/
/- Token manager (src/auth.ts)                                         -/
/- ------------------------------------------------------------------ -/

/-- The module-level cache of src/auth.ts: `cachedToken` starts `null` and
can hold any runtime value assigned from `data.access_token` (`none` covers
both `null` and `undefined`); `tokenExpiresAt` starts `0` and `none` stands
for NaN (from an unparseable or missing `expires_at`). -/
structure AuthState : Type where
  cachedToken : Option JsonVal
  tokenExpiresAt : Option Int

/-- The initial module state: `cachedToken = null`, `tokenExpiresAt = 0`. -/
def authInit : AuthState := { cachedToken := none, tokenExpiresAt := some 0 }

/-- Failures of `getAccessToken`: a non-2xx token-endpoint response (the
thrown `Error` message is `Failed to obtain access token: status statusText - body`),
a body `res.json()` cannot decode, or a JSON `null` body (property access on
`null` throws a TypeError). -/
inductive AuthError : Type where
  | httpError (status : Nat) (statusText : String) (bodyText : String)
  | jsonDecodeFailure
  | nullBody
deriving DecidableEq

/-- The cached-token fast path guard of `getAccessToken`:
`cachedToken && Date.now() < tokenExpiresAt - 60_000` (NaN comparisons are
false). -/
def authFresh (now : Int) (st : AuthState) : Bool :=
  jsTruthy st.cachedToken &&
    (match st.tokenExpiresAt with
     | some e => decide (now < e - 60000)
     | none => false)

/-- `getAccessToken` from src/auth.ts.  `dateMs` models the JS builtin
`new Date(x).getTime()` applied to the (possibly undefined) `expires_at`
field; `net n` is the response to the n-th outbound HTTP call.  Returns the
result (`ok v` with `v` the returned runtime value, `none` = `undefined`),
the new module state, and the number of network calls issued. -/
def getAccessToken (dateMs : Option JsonVal → Option Int) (now : Int)
    (st : AuthState) (net : Nat → HttpResponse) :
    Except AuthError (Option JsonVal) × AuthState × Nat :=
  if authFresh now st then (Except.ok st.cachedToken, st, 0)
  else
    let resp := net 0
    if respOk resp then
      match resp.bodyJson with
      | none => (Except.error AuthError.jsonDecodeFailure, st, 1)
      | some JsonVal.nullV => (Except.error AuthError.nullBody, st, 1)
      | some j =>
        let tok := jsField j "access_token"
        (Except.ok tok,
         { cachedToken := tok, tokenExpiresAt := dateMs (jsField j "expires_at") }, 1)
    else (Except.error (AuthError.httpError resp.status resp.statusText resp.bodyText), st, 1)

/- ------------------------------------------------------------------ -/
/- Request/pagination engine (src/client.ts)                           -/
/- ------------------------------------------------------------------ -/

/-- The fixed resource API base of src/client.ts. -/
def BASE_URL : String := "https://harvest.greenhouse.io/v3"

/-- Failures of the resource operations: a non-2xx response (the thrown
`Error` message is rendered by `ApiError.message`), or a success body
`res.json()` cannot decode (the runtime SyntaxError's text is not modelled). -/
inductive ApiError : Type where
  | httpError (status : Nat) (statusText : String) (bodyText : String)
  | jsonDecodeFailure
deriving DecidableEq

/-- The message of the thrown `Error` for a non-2xx response:
`Greenhouse API error: status statusText - body`. -/
def ApiError.message : ApiError → String
  | ApiError.httpError status statusText bodyText =>
    "Greenhouse API error: " ++ toString status ++ " " ++ statusText ++ " - " ++ bodyText
  | ApiError.jsonDecodeFailure => ""

/-- The uniform result envelope `ApiResponse<T>` of src/client.ts. -/
structure ApiResponseM : Type where
  data : JsonVal
  nextCursor : Option String

/-- The outbound GET request as handed to `fetch`: the constructed URL and
the header list. -/
structure GetRequest : Type where
  url : UrlModel
  headers : List (String × String)

/-- The outbound POST request as handed to `fetch`: the raw URL string (no
URL parsing happens on the POST path), headers, and the (unstringified)
JSON body. -/
structure PostRequest : Type where
  url : String
  headers : List (String × String)
  body : Option JsonVal

/-- Headers of a GET request. -/
def bearerHeaders (token : String) : List (String × String) :=
  [("Authorization", "Bearer " ++ token), ("Accept", "application/json")]

/-- Headers of a POST request. -/
def postHeaders (token : String) : List (String × String) :=
  [("Authorization", "Bearer " ++ token), ("Content-Type", "application/json"),
   ("Accept", "application/json")]

/-- One loop step of `buildUrl`: skip `undefined` and empty-string values,
otherwise `searchParams.set(key, String(value))`. -/
def applyParam (q : List (String × String)) (kv : String × Option PrimVal) :
    List (String × String) :=
  match kv.2 with
  | none => q
  | some v => if v = PrimVal.str "" then q else setParam q kv.1 (primToString v)

/-- `buildUrl` from src/client.ts: parse `BASE_URL + path` as a URL, then fold
the filter bag over `searchParams.set`, dropping `undefined` and `""` values
(the optional absent bag is modelled as the empty list). -/
def buildUrl (path : String) (params : List (String × Option PrimVal)) : UrlModel :=
  let u := newUrlOfString (BASE_URL ++ path)
  { u with query := params.foldl applyParam u.query }

/-- Shared GET tail of `apiGet`/`apiGetWithCursor`: classify the response,
decode the body, and extract `nextCursor` from the link header's
`rel="next"` URL. -/
def getResult (resp : HttpResponse) : Except ApiError ApiResponseM :=
  if respOk resp then
    match resp.bodyJson with
    | none => Except.error ApiError.jsonDecodeFailure
    | some d =>
      let nextUrl := parseLinkHeader resp.linkHeader
      Except.ok { data := d,
                  nextCursor := nextUrl.bind (fun u => getQueryParam u "cursor") }
  else Except.error (ApiError.httpError resp.status resp.statusText resp.bodyText)

/-- `apiGet` from src/client.ts (with the bearer token already obtained):
build the filtered URL, issue one GET, classify and decode. -/
def apiGet (token : String) (path : String)
    (params : List (String × Option PrimVal)) (net : Nat → HttpResponse) :
    GetRequest × Except ApiError ApiResponseM :=
  let req : GetRequest := { url := buildUrl path params, headers := bearerHeaders token }
  (req, getResult (net 0))

/-- `apiPost` from src/client.ts: raw URL string, one POST; 204 short-circuits
to an empty-object envelope without decoding; `nextCursor` is always null. -/
def apiPost (token : String) (path : String) (body : Option JsonVal)
    (net : Nat → HttpResponse) : PostRequest × Except ApiError ApiResponseM :=
  let req : PostRequest :=
    { url := BASE_URL ++ path, headers := postHeaders token, body := body }
  let resp := net 0
  if respOk resp then
    if resp.status = 204 then (req, Except.ok { data := JsonVal.obj [], nextCursor := none })
    else
      match resp.bodyJson with
      | none => (req, Except.error ApiError.jsonDecodeFailure)
      | some d => (req, Except.ok { data := d, nextCursor := none })
  else (req, Except.error (ApiError.httpError resp.status resp.statusText resp.bodyText))

/-- `apiGetWithCursor` from src/client.ts: the URL is `BASE_URL + path` with
`searchParams.set("cursor", cursor)` and nothing else; `perPage` is accepted
but never used. -/
def apiGetWithCursor (token : String) (path : String) (cursor : String)
    (perPage : Option Int) (net : Nat → HttpResponse) :
    GetRequest × Except ApiError ApiResponseM :=
  let u := newUrlOfString (BASE_URL ++ path)
  let req : GetRequest :=
    { url := { u with query := setParam u.query "cursor" cursor },
      headers := bearerHeaders token }
  (req, getResult (net 0))

/-- `listEndpoint` from src/index.ts: `if (cursor)` dispatches to
`apiGetWithCursor` (perPage omitted) when the cursor is truthy — defined and
non-empty — and to `apiGet` with the filter bag otherwise. -/
def listEndpoint (token : String) (path : String)
    (params : List (String × Option PrimVal)) (cursor : Option String)
    (net : Nat → HttpResponse) : GetRequest × Except ApiError ApiResponseM :=
  match cursor with
  | some c => if c ≠ "" then apiGetWithCursor token path c none net
              else apiGet token path params net
  | none => apiGet token path params net

/-- The kept entries of a filter bag, in order, with stringified values:
what `buildUrl`'s loop serializes. -/
def serializeBag (params : List (String × Option PrimVal)) : List (String × String) :=
  params.filterMap fun kv =>
    match kv.2 with
    | none => none
    | some v => if v = PrimVal.str "" then none else some (kv.1, primToString v)

/- ------------------------------------------------------------------ -/
/- Helper lemmas on the URL model                                      -/
/- ------------------------------------------------------------------ -/

lemma mem_of_mem_splitAtFirst_fst {sep : Char} {cs : List Char} {c : Char}
    (h : c ∈ (splitAtFirst sep cs).1) : c ∈ cs := by
  induction cs with
  | nil => simpa [splitAtFirst] using h
  | cons a rest ih =>
    by_cases ha : a = sep
    · simp [splitAtFirst, ha] at h
    · simp only [splitAtFirst, ha, if_false] at h
      rcases List.mem_cons.1 h with h | h
      · simp [h]
      · exact List.mem_cons_of_mem _ (ih h)

lemma splitAtFirst_of_not_mem {sep : Char} {cs : List Char} (h : sep ∉ cs) :
    splitAtFirst sep cs = (cs, none) := by
  induction cs with
  | nil => rfl
  | cons a rest ih =>
    rw [List.mem_cons, not_or] at h
    simp [splitAtFirst, Ne.symm h.1, ih h.2]

lemma newUrlOfString_query_nil {s : String} (h : '?' ∉ s.data) :
    (newUrlOfString s).query = [] := by
  have h2 : '?' ∉ (splitAtFirst '#' s.data).1 :=
    fun hc => h (mem_of_mem_splitAtFirst_fst hc)
  simp [newUrlOfString, splitAtFirst_of_not_mem h2]

lemma setParam_of_not_mem {q : List (String × String)} {k v : String}
    (h : ∀ p ∈ q, p.1 ≠ k) : setParam q k v = q ++ [(k, v)] := by
  induction q with
  | nil => rfl
  | cons p rest ih =>
    have hp : p.1 ≠ k := h p (List.mem_cons_self p rest)
    simp [setParam, hp, ih (fun x hx => h x (List.mem_cons_of_mem p hx))]

lemma mem_setParam {q : List (String × String)} {k v : String} {p : String × String}
    (h : p ∈ setParam q k v) : p.1 ∈ q.map Prod.fst ∨ p.1 = k := by
  induction q with
  | nil =>
    simp [setParam] at h
    simp [h]
  | cons p0 rest ih =>
    by_cases h0 : p0.1 = k
    · simp only [setParam, h0, if_true] at h
      rcases List.mem_cons.1 h with h | h
      · right; simp [h]
      · left
        exact List.mem_cons_of_mem _ (List.mem_map_of_mem Prod.fst (List.mem_of_mem_filter h))
    · simp only [setParam, h0, if_false] at h
      rcases List.mem_cons.1 h with h | h
      · left; simp [h]
      · rcases ih h with hh | hh
        · left; exact List.mem_cons_of_mem _ hh
        · right; exact hh

lemma keys_applyParam {q : List (String × String)} {kv : String × Option PrimVal}
    {x : String} (h : x ∈ (applyParam q kv).map Prod.fst) :
    x ∈ q.map Prod.fst ∨ x = kv.1 := by
  rcases kv with ⟨k, ov⟩
  cases ov with
  | none => left; simpa [applyParam] using h
  | some v =>
    by_cases hv : v = PrimVal.str ""
    · left; simpa [applyParam, hv] using h
    · simp only [applyParam, hv, if_false] at h
      rcases List.mem_map.1 h with ⟨p, hp, hx⟩
      rcases mem_setParam hp with h1 | h1
      · left; rw [← hx]; exact h1
      · right; rw [← hx]; exact h1

lemma mem_foldl_applyParam {bag : List (String × Option PrimVal)} :
    ∀ {q : List (String × String)} {p : String × String},
    p ∈ bag.foldl applyParam q →
    p.1 ∈ q.map Prod.fst ∨ p.1 ∈ bag.map Prod.fst := by
  induction bag with
  | nil =>
    intro q p h
    left
    exact List.mem_map_of_mem Prod.fst (by simpa using h)
  | cons kv rest ih =>
    intro q p h
    rw [List.foldl_cons] at h
    rcases ih h with h' | h'
    · rcases keys_applyParam h' with h2 | h2
      · left; exact h2
      · right; simp [h2]
    · right; exact List.mem_cons_of_mem _ h'

lemma foldl_applyParam_eq_append {bag : List (String × Option PrimVal)} :
    ∀ q : List (String × String), (bag.map Prod.fst).Nodup →
    (∀ p ∈ q, p.1 ∉ bag.map Prod.fst) →
    bag.foldl applyParam q = q ++ serializeBag bag := by
  induction bag with
  | nil => intro q _ _; simp [serializeBag]
  | cons kv rest ih =>
    intro q hnd hdisj
    rcases kv with ⟨k, ov⟩
    have hnd' := List.nodup_cons.1 (hnd : (k :: rest.map Prod.fst).Nodup)
    have hdisj' : ∀ p ∈ q, p.1 ∉ rest.map Prod.fst := by
      intro p hp hmem
      exact hdisj p hp (List.mem_cons.2 (Or.inr hmem))
    cases ov with
    | none =>
      rw [List.foldl_cons, show applyParam q (k, none) = q from rfl,
        ih q hnd'.2 hdisj']
      simp [serializeBag]
    | some v =>
      by_cases hv : v = PrimVal.str ""
      · rw [List.foldl_cons, show applyParam q (k, some v) = q by simp [applyParam, hv],
          ih q hnd'.2 hdisj']
        simp [serializeBag, hv]
      · have hset : applyParam q (k, some v) = q ++ [(k, primToString v)] := by
          simp only [applyParam, hv, if_false]
          exact setParam_of_not_mem (fun p hp he => hdisj p hp (List.mem_cons.2 (Or.inl he)))
        have hdisj2 : ∀ p ∈ q ++ [(k, primToString v)], p.1 ∉ rest.map Prod.fst := by
          intro p hp
          rcases List.mem_append.1 hp with hp | hp
          · exact hdisj' p hp
          · have : p = (k, primToString v) := by simpa using hp
            rw [this]
            exact hnd'.1
        rw [List.foldl_cons, hset, ih (q ++ [(k, primToString v)]) hnd'.2 hdisj2]
        simp [serializeBag, hv, List.append_assoc]

/- ------------------------------------------------------------------ -/
/- Concrete sample data                                                -/
/- ------------------------------------------------------------------ -/

/-- A 200 response whose body decodes to the empty JSON object. -/
def okEmptyResp : HttpResponse :=
  { status := 200, statusText := "OK", bodyText := "\x7b\x7d",
    bodyJson := some (JsonVal.obj []), linkHeader := none }

/-- A network oracle answering every call with `okEmptyResp`. -/
def okNet : Nat → HttpResponse := fun _ => okEmptyResp

/-- A 200 token-endpoint response with well-formed token fields. -/
def tokenBodyResp : HttpResponse :=
  { status := 200, statusText := "OK", bodyText := "",
    bodyJson := some (JsonVal.obj
      [("token_type", JsonVal.str "Bearer"),
       ("access_token", JsonVal.str "tok2"),
       ("expires_at", JsonVal.str "2025-01-01T00:00:00Z")]),
    linkHeader := none }

/-- A network oracle answering every call with `tokenBodyResp`. -/
def tokenNet : Nat → HttpResponse := fun _ => tokenBodyResp

/- ------------------------------------------------------------------ -/
/- C1: token cache behaviour of getAccessToken                         -/
/- ------------------------------------------------------------------ -/

/-- Claim C1, counterexample.  The claim says a cached token that exists and
expires more than 60s from now is returned with zero network calls; but the
guard is JS truthiness, so a cached *empty-string* token (which exists, with
expiry 940s in the future at `now = 0`) still triggers a token exchange:
one network call is issued. -/
theorem getAccessToken_cached_empty_token_counterexample :
    (AuthState.mk (some (JsonVal.str "")) (some 1000000)).cachedToken.isSome = true
  ∧ ((0 : Int) < 1000000 - 60000)
  ∧ (getAccessToken (fun _ => some 0) 0
      (AuthState.mk (some (JsonVal.str "")) (some 1000000)) tokenNet).2.2 = 1 :=
  ⟨rfl, by decide, rfl⟩

/-- Claim C1, amended: if the cached token is *truthy* (in particular a
non-empty string) and now is more than 60s before the recorded expiry, the
cached value is returned with zero network calls and no state change;
otherwise exactly one token exchange is performed, and on a success response
with a decodable non-null JSON body the returned token equals the body's
`access_token` field, with the `Date`-converted `expires_at` epoch-ms value
stored in the cache slot. -/
theorem getAccessToken_cache_spec (dateMs : Option JsonVal → Option Int)
    (now : Int) (st : AuthState) (net : Nat → HttpResponse) :
    (authFresh now st = true ↔
      jsTruthy st.cachedToken = true ∧ ∃ e, st.tokenExpiresAt = some e ∧ now < e - 60000)
  ∧ (authFresh now st = true →
      getAccessToken dateMs now st net = (Except.ok st.cachedToken, st, 0))
  ∧ (authFresh now st = false →
      (getAccessToken dateMs now st net).2.2 = 1
    ∧ (respOk (net 0) = true → ∀ j, (net 0).bodyJson = some j → j ≠ JsonVal.nullV →
        getAccessToken dateMs now st net =
          (Except.ok (jsField j "access_token"),
           { cachedToken := jsField j "access_token",
             tokenExpiresAt := dateMs (jsField j "expires_at") }, 1))) := by
  refine ⟨?_, ?_, ?_⟩
  · cases hexp : st.tokenExpiresAt with
    | none => simp [authFresh, hexp]
    | some e => simp [authFresh, hexp]
  · intro h
    simp [getAccessToken, h]
  · intro h
    constructor
    · cases hok : respOk (net 0) with
      | false => simp [getAccessToken, h, hok]
      | true =>
        cases hj : (net 0).bodyJson with
        | none => simp [getAccessToken, h, hok, hj]
        | some j => cases j <;> simp [getAccessToken, h, hok, hj]
    · intro hok j hj hnull
      cases j with
      | nullV => exact absurd rfl hnull
      | str s => simp [getAccessToken, h, hok, hj]
      | num n => simp [getAccessToken, h, hok, hj]
      | bool b => simp [getAccessToken, h, hok, hj]
      | obj fields => simp [getAccessToken, h, hok, hj]
      | arr elems => simp [getAccessToken, h, hok, hj]

/-- Claim C1, witness: a cached non-empty token far from expiry is returned
unchanged with zero calls, and from the initial state a well-formed exchange
caches and returns the new token with one call. -/
theorem getAccessToken_cache_spec_witness :
    getAccessToken (fun _ => none) 0
        (AuthState.mk (some (JsonVal.str "tok")) (some 1000000)) tokenNet
      = (Except.ok (some (JsonVal.str "tok")),
         AuthState.mk (some (JsonVal.str "tok")) (some 1000000), 0)
  ∧ getAccessToken (fun _ => some 1735689600000) 0 authInit tokenNet
      = (Except.ok (some (JsonVal.str "tok2")),
         { cachedToken := some (JsonVal.str "tok2"),
           tokenExpiresAt := some 1735689600000 }, 1) := by
  constructor
  · exact (getAccessToken_cache_spec (fun _ => none) 0
      (AuthState.mk (some (JsonVal.str "tok")) (some 1000000)) tokenNet).2.1 (by decide)
  · exact ((getAccessToken_cache_spec (fun _ => some 1735689600000) 0 authInit
        tokenNet).2.2 (by decide)).2 (by decide)
      (JsonVal.obj
        [("token_type", JsonVal.str "Bearer"),
         ("access_token", JsonVal.str "tok2"),
         ("expires_at", JsonVal.str "2025-01-01T00:00:00Z")])
      rfl (fun hh => JsonVal.noConfusion hh)

/- ------------------------------------------------------------------ -/
/- C7: malformed token bodies                                          -/
/- ------------------------------------------------------------------ -/

/-- Claim C7, counterexample.  The claim says `getAccessToken` fails with an
`AuthError` on any success response whose JSON body lacks the expected
`access_token`/`expires_at` string fields.  But the code casts the decoded
body without validating it: a 200 response whose body is the empty JSON
object produces `Except.ok none` (the `undefined` access_token is returned
to the caller), not an error. -/
theorem getAccessToken_malformed_body_counterexample :
    respOk (okNet 0) = true
  ∧ (okNet 0).bodyJson = some (JsonVal.obj [])
  ∧ (getAccessToken (fun _ => none) 0 authInit okNet).1 = Except.ok none :=
  ⟨by decide, rfl, rfl⟩

/-- Claim C7, amended: on a success response, `getAccessToken` fails only
when the body is not decodable JSON (or is JSON `null`, where the property
access throws); a decodable JSON object body is never validated — the
`access_token` field, `undefined` when missing, is returned without error. -/
theorem getAccessToken_no_validation (dateMs : Option JsonVal → Option Int)
    (now : Int) (st : AuthState) (net : Nat → HttpResponse)
    (hstale : authFresh now st = false) (hok : respOk (net 0) = true) :
    ((net 0).bodyJson = none →
      (getAccessToken dateMs now st net).1 = Except.error AuthError.jsonDecodeFailure)
  ∧ ((net 0).bodyJson = some JsonVal.nullV →
      (getAccessToken dateMs now st net).1 = Except.error AuthError.nullBody)
  ∧ (∀ fields, (net 0).bodyJson = some (JsonVal.obj fields) →
      (getAccessToken dateMs now st net).1 =
        Except.ok ((fields.find? (fun p => p.1 = "access_token")).map (fun p => p.2))) := by
  refine ⟨?_, ?_, ?_⟩
  · intro hj
    simp [getAccessToken, hstale, hok, hj]
  · intro hj
    simp [getAccessToken, hstale, hok, hj]
  · intro fields hj
    simp [getAccessToken, hstale, hok, hj, jsField]

/-- Claim C7, witness: from the initial state, a success response whose body
carries the token fields yields exactly the `access_token` field value. -/
theorem getAccessToken_no_validation_witness :
    (getAccessToken (fun _ => none) 0 authInit tokenNet).1
      = Except.ok (some (JsonVal.str "tok2")) := by
  exact (getAccessToken_no_validation (fun _ => none) 0 authInit tokenNet
      (by decide) (by decide)).2.2
    [("token_type", JsonVal.str "Bearer"),
     ("access_token", JsonVal.str "tok2"),
     ("expires_at", JsonVal.str "2025-01-01T00:00:00Z")] rfl

/- ------------------------------------------------------------------ -/
/- C3: filter serialization in buildUrl                                -/
/- ------------------------------------------------------------------ -/

/-- Claim C3: for every filter bag (with record-like distinct keys) passed to
`apiGet`'s URL builder, exactly the entries whose value is neither
`undefined` nor the empty string appear in the outbound query, in order,
with numbers and booleans stringified. -/
theorem buildUrl_filter_omission (path : String)
    (params : List (String × Option PrimVal))
    (hpath : '?' ∉ path.data) (hnd : (params.map Prod.fst).Nodup) :
    (buildUrl path params).query = serializeBag params := by
  have hq : (newUrlOfString (BASE_URL ++ path)).query = [] := by
    apply newUrlOfString_query_nil
    rw [String.data_append]
    intro hmem
    rcases List.mem_append.1 hmem with h | h
    · exact absurd h (by decide)
    · exact hpath h
  show params.foldl applyParam (newUrlOfString (BASE_URL ++ path)).query = _
  rw [hq, foldl_applyParam_eq_append [] hnd (by intro p hp; simp at hp)]
  simp

/-- The spec's example filter bag `{a: undefined, b: "", c: "x", d: 5, e: false}`. -/
def exampleBag : List (String × Option PrimVal) :=
  [("a", none), ("b", some (PrimVal.str "")), ("c", some (PrimVal.str "x")),
   ("d", some (PrimVal.num 5)), ("e", some (PrimVal.bool false))]

/-- Claim C3, witness: the example bag serializes to exactly
`c=x&d=5&e=false`. -/
theorem buildUrl_filter_omission_witness :
    (buildUrl "/jobs" exampleBag).query = [("c", "x"), ("d", "5"), ("e", "false")]
  ∧ urlToString (buildUrl "/jobs" exampleBag)
      = "https://harvest.greenhouse.io/v3/jobs?c=x&d=5&e=false" := by
  constructor
  · exact (buildUrl_filter_omission "/jobs" exampleBag (by decide) (by decide)).trans rfl
  · rfl

/- ------------------------------------------------------------------ -/
/- C2: cursor/filter routing in listEndpoint                           -/
/- ------------------------------------------------------------------ -/

/-- Claim C2, counterexample.  The claim says a present cursor value always
dispatches to `apiGetWithCursor` with `cursor` as the only query parameter;
but `if (cursor)` tests JS truthiness, so a present *empty-string* cursor
dispatches to `apiGet` and the outbound query carries the filter bag and no
cursor at all. -/
theorem listEndpoint_empty_cursor_counterexample :
    listEndpoint "tok" "/jobs" [("status", some (PrimVal.str "open"))] (some "") okNet
      = apiGet "tok" "/jobs" [("status", some (PrimVal.str "open"))] okNet
  ∧ (listEndpoint "tok" "/jobs" [("status", some (PrimVal.str "open"))]
      (some "") okNet).1.url.query = [("status", "open")] :=
  ⟨rfl, rfl⟩

/-- Claim C2, amended: for paths without their own query string and filter
bags without a "cursor" key (as all `listEndpoint` call sites are), a present
*non-empty* cursor dispatches to `apiGetWithCursor` and the outbound query is
exactly the single parameter `cursor`; an absent or empty cursor dispatches
to `apiGet` with the filter bag; and whenever `cursor` appears in an outbound
query it is the only parameter, so cursor and filters are never combined. -/
theorem listEndpoint_routing (token path : String)
    (params : List (String × Option PrimVal)) (cursor : Option String)
    (net : Nat → HttpResponse)
    (hpath : '?' ∉ path.data) (hbag : "cursor" ∉ params.map Prod.fst) :
    (∀ c, cursor = some c → c ≠ "" →
        listEndpoint token path params cursor net = apiGetWithCursor token path c none net
      ∧ (listEndpoint token path params cursor net).1.url.query = [("cursor", c)])
  ∧ (cursor = none ∨ cursor = some "" →
        listEndpoint token path params cursor net = apiGet token path params net)
  ∧ (∀ kv, kv ∈ (listEndpoint token path params cursor net).1.url.query →
        kv.1 = "cursor" →
        (listEndpoint token path params cursor net).1.url.query = [("cursor", kv.2)]) := by
  have hq : (newUrlOfString (BASE_URL ++ path)).query = [] := by
    apply newUrlOfString_query_nil
    rw [String.data_append]
    intro hmem
    rcases List.mem_append.1 hmem with h | h
    · exact absurd h (by decide)
    · exact hpath h
  refine ⟨?_, ?_, ?_⟩
  · intro c hc hne
    subst hc
    refine ⟨by simp [listEndpoint, hne], ?_⟩
    simp [listEndpoint, hne, apiGetWithCursor, hq, setParam]
  · intro h
    rcases h with h | h <;> subst h <;> simp [listEndpoint]
  · intro kv hkv hcur
    cases cursor with
    | none =>
      exfalso
      rcases mem_foldl_applyParam
          (show kv ∈ params.foldl applyParam (newUrlOfString (BASE_URL ++ path)).query
           from hkv) with h1 | h1
      · rw [hq] at h1
        simp at h1
      · rw [hcur] at h1
        exact hbag h1
    | some c =>
      by_cases hne : c = ""
      · subst hne
        exfalso
        rcases mem_foldl_applyParam
            (show kv ∈ params.foldl applyParam (newUrlOfString (BASE_URL ++ path)).query
             from hkv) with h1 | h1
        · rw [hq] at h1
          simp at h1
        · rw [hcur] at h1
          exact hbag h1
      · have hqc : (listEndpoint token path params (some c) net).1.url.query
            = [("cursor", c)] := by
          simp [listEndpoint, hne, apiGetWithCursor, hq, setParam]
        rw [hqc] at hkv
        simp at hkv
        rw [hqc]
        simp [hkv]

/-- Claim C2, witness: a non-empty cursor with a filter bag available yields
an outbound query containing exactly the cursor parameter. -/
theorem listEndpoint_routing_witness :
    (listEndpoint "tok" "/jobs" [("status", some (PrimVal.str "open"))]
      (some "abc") okNet).1.url.query = [("cursor", "abc")] := by
  exact ((listEndpoint_routing "tok" "/jobs" [("status", some (PrimVal.str "open"))]
    (some "abc") okNet (by decide) (by decide)).1 "abc" rfl (by decide)).2

/- ------------------------------------------------------------------ -/
/- C4: next-cursor extraction from the link header                     -/
/- ------------------------------------------------------------------ -/

/-- Claim C4: on a successful GET, `nextCursor` is the `cursor` query
parameter of the link header's `rel="next"` URL, and is `null` when the
header is absent or carries no `rel="next"` entry. -/
theorem apiGet_nextCursor_extraction (token path : String)
    (params : List (String × Option PrimVal)) (net : Nat → HttpResponse)
    (d : JsonVal) (hok : respOk (net 0) = true) (hj : (net 0).bodyJson = some d) :
    (apiGet token path params net).2
      = Except.ok { data := d,
                    nextCursor := (parseLinkHeader (net 0).linkHeader).bind
                      (fun u => getQueryParam u "cursor") }
  ∧ (∀ u, parseLinkHeader (net 0).linkHeader = some u →
      (apiGet token path params net).2
        = Except.ok { data := d, nextCursor := getQueryParam u "cursor" })
  ∧ ((net 0).linkHeader = none →
      (apiGet token path params net).2 = Except.ok { data := d, nextCursor := none })
  ∧ (parseLinkHeader (net 0).linkHeader = none →
      (apiGet token path params net).2 = Except.ok { data := d, nextCursor := none }) := by
  refine ⟨?_, ?_, ?_, ?_⟩
  · simp [apiGet, getResult, hok, hj]
  · intro u hu
    simp [apiGet, getResult, hok, hj, hu]
  · intro hl
    simp [apiGet, getResult, hok, hj, hl, parseLinkHeader]
  · intro hl
    simp [apiGet, getResult, hok, hj, hl]

/-- The spec's example link header. -/
def nextHeader : String := "<https://host/v3/jobs?cursor=abc123>; rel=\"next\""

/-- A 200 response carrying the example link header. -/
def linkResp : HttpResponse :=
  { status := 200, statusText := "OK", bodyText := "",
    bodyJson := some (JsonVal.obj []), linkHeader := some nextHeader }

/-- A network oracle answering every call with `linkResp`. -/
def linkNet : Nat → HttpResponse := fun _ => linkResp

/-- Claim C4, witness: the example header yields `nextCursor = "abc123"`;
an absent header yields `nextCursor = null`. -/
theorem apiGet_nextCursor_extraction_witness :
    (apiGet "tok" "/jobs" [] linkNet).2
      = Except.ok { data := JsonVal.obj [], nextCursor := some "abc123" }
  ∧ (apiGet "tok" "/jobs" [] okNet).2
      = Except.ok { data := JsonVal.obj [], nextCursor := none } := by
  constructor
  · exact ((apiGet_nextCursor_extraction "tok" "/jobs" [] linkNet (JsonVal.obj [])
      (by decide) rfl).1).trans (by rfl)
  · exact (apiGet_nextCursor_extraction "tok" "/jobs" [] okNet (JsonVal.obj [])
      (by decide) rfl).2.2.1 rfl

/- ------------------------------------------------------------------ -/
/- C5: non-2xx error propagation                                       -/
/- ------------------------------------------------------------------ -/

/-- Claim C5: on any non-2xx response, each of the three resource operations
fails with the error built from the status, status text and the *raw* body
text (the body's JSON decode is never consulted: the error is determined
without reference to `bodyJson`); the rendered message contains the status
code, the status text and the raw body; and no retry is attempted — the
result depends only on the first response of the network oracle. -/
theorem nonSuccess_error_propagation (token path : String)
    (params : List (String × Option PrimVal)) (body : Option JsonVal)
    (cursor : String) (perPage : Option Int) (net : Nat → HttpResponse)
    (hbad : respOk (net 0) = false) :
    (apiGet token path params net).2
      = Except.error (ApiError.httpError (net 0).status (net 0).statusText (net 0).bodyText)
  ∧ (apiPost token path body net).2
      = Except.error (ApiError.httpError (net 0).status (net 0).statusText (net 0).bodyText)
  ∧ (apiGetWithCursor token path cursor perPage net).2
      = Except.error (ApiError.httpError (net 0).status (net 0).statusText (net 0).bodyText)
  ∧ (toString (net 0).status).data
      <:+: (ApiError.message
        (ApiError.httpError (net 0).status (net 0).statusText (net 0).bodyText)).data
  ∧ (net 0).statusText.data
      <:+: (ApiError.message
        (ApiError.httpError (net 0).status (net 0).statusText (net 0).bodyText)).data
  ∧ (net 0).bodyText.data
      <:+: (ApiError.message
        (ApiError.httpError (net 0).status (net 0).statusText (net 0).bodyText)).data
  ∧ (∀ net2 : Nat → HttpResponse, net2 0 = net 0 →
        apiGet token path params net2 = apiGet token path params net
      ∧ apiPost token path body net2 = apiPost token path body net
      ∧ apiGetWithCursor token path cursor perPage net2
          = apiGetWithCursor token path cursor perPage net) := by
  refine ⟨?_, ?_, ?_, ?_, ?_, ?_, ?_⟩
  · simp [apiGet, getResult, hbad]
  · simp [apiPost, hbad]
  · simp [apiGetWithCursor, getResult, hbad]
  · exact ⟨"Greenhouse API error: ".data,
      " ".data ++ (net 0).statusText.data ++ " - ".data ++ (net 0).bodyText.data,
      by simp [ApiError.message, String.data_append, List.append_assoc]⟩
  · exact ⟨"Greenhouse API error: ".data ++ (toString (net 0).status).data ++ " ".data,
      " - ".data ++ (net 0).bodyText.data,
      by simp [ApiError.message, String.data_append, List.append_assoc]⟩
  · exact ⟨"Greenhouse API error: ".data ++ (toString (net 0).status).data ++ " ".data
        ++ (net 0).statusText.data ++ " - ".data, [],
      by simp [ApiError.message, String.data_append, List.append_assoc]⟩
  · intro net2 h2
    refine ⟨?_, ?_, ?_⟩ <;> simp [apiGet, apiPost, apiGetWithCursor, getResult, h2]

/-- A 404 response with raw body text. -/
def notFoundResp : HttpResponse :=
  { status := 404, statusText := "Not Found", bodyText := "not found",
    bodyJson := none, linkHeader := none }

/-- A network oracle answering every call with `notFoundResp`. -/
def notFoundNet : Nat → HttpResponse := fun _ => notFoundResp

/-- Claim C5, witness: a 404 GET with body "not found" fails with the error
whose message contains 404 and "not found". -/
theorem nonSuccess_error_propagation_witness :
    (apiGet "tok" "/jobs" [] notFoundNet).2
      = Except.error (ApiError.httpError 404 "Not Found" "not found")
  ∧ "404".data <:+: (ApiError.message (ApiError.httpError 404 "Not Found" "not found")).data
  ∧ "not found".data
      <:+: (ApiError.message (ApiError.httpError 404 "Not Found" "not found")).data := by
  have h := nonSuccess_error_propagation "tok" "/jobs" [] none "c" none notFoundNet (by decide)
  exact ⟨h.1, h.2.2.2.1, h.2.2.2.2.2.1⟩

/- ------------------------------------------------------------------ -/
/- C6: POST 204 handling and null cursor                               -/
/- ------------------------------------------------------------------ -/

/-- Claim C6: a 204 POST response yields the empty-object envelope with null
cursor without any JSON decoding (the result is fixed even when the body is
undecodable), and every successful POST has a null `nextCursor`. -/
theorem apiPost_no_content (token path : String) (body : Option JsonVal)
    (net : Nat → HttpResponse) :
    ((net 0).status = 204 →
      (apiPost token path body net).2
        = Except.ok { data := JsonVal.obj [], nextCursor := none })
  ∧ (∀ env, (apiPost token path body net).2 = Except.ok env → env.nextCursor = none) := by
  constructor
  · intro h204
    have hok : respOk (net 0) = true := by
      unfold respOk
      rw [h204]
      decide
    simp [apiPost, hok, h204]
  · intro env henv
    cases hok : respOk (net 0) with
    | false => simp [apiPost, hok] at henv
    | true =>
      by_cases h204 : (net 0).status = 204
      · simp [apiPost, hok, h204] at henv
        rw [← henv]
      · cases hj : (net 0).bodyJson with
        | none => simp [apiPost, hok, h204, hj] at henv
        | some d =>
          simp [apiPost, hok, h204, hj] at henv
          rw [← henv]

/-- A 204 No Content response (body undecodable, proving no decode happens). -/
def noContentResp : HttpResponse :=
  { status := 204, statusText := "No Content", bodyText := "",
    bodyJson := none, linkHeader := none }

/-- A network oracle answering every call with `noContentResp`. -/
def noContentNet : Nat → HttpResponse := fun _ => noContentResp

/-- Claim C6, witness: a 204 reject POST yields the empty envelope. -/
theorem apiPost_no_content_witness :
    (apiPost "tok" "/applications/5/reject" (some (JsonVal.obj [])) noContentNet).2
      = Except.ok { data := JsonVal.obj [], nextCursor := none } :=
  (apiPost_no_content "tok" "/applications/5/reject"
    (some (JsonVal.obj [])) noContentNet).1 rfl

/- ------------------------------------------------------------------ -/
/- C8: perPage has no effect in apiGetWithCursor                       -/
/- ------------------------------------------------------------------ -/

/-- Claim C8: `apiGetWithCursor` ignores its `perPage` argument entirely —
for any two perPage values the outbound request (URL and headers) and the
result envelope coincide; perPage is never serialized. -/
theorem apiGetWithCursor_perPage_unused (token path cursor : String)
    (p1 p2 : Option Int) (net : Nat → HttpResponse) :
    apiGetWithCursor token path cursor p1 net = apiGetWithCursor token path cursor p2 net :=
  rfl

/- ------------------------------------------------------------------ -/
/- C9: apiGet does not police a "cursor" key in the filter bag         -/
/- ------------------------------------------------------------------ -/

/-- A filter bag smuggling a cursor next to an ordinary filter. -/
def cursorBag : List (String × Option PrimVal) :=
  [("cursor", some (PrimVal.str "abc")), ("status", some (PrimVal.str "open"))]

/-- Claim C9: `apiGet` performs no validation of filter keys — a bag
containing a "cursor" key alongside another filter is serialized as-is, the
outbound request carries both, and the call still succeeds. -/
theorem apiGet_cursor_in_bag_unchecked :
    (apiGet "tok" "/jobs" cursorBag okNet).1.url.query
      = [("cursor", "abc"), ("status", "open")]
  ∧ (apiGet "tok" "/jobs" cursorBag okNet).2
      = Except.ok { data := JsonVal.obj [], nextCursor := none } :=
  ⟨rfl, rfl⟩

/- ------------------------------------------------------------------ -/
/- C10: rel="next" URL without a cursor parameter                      -/
/- ------------------------------------------------------------------ -/

/-- Claim C10: when the link header does carry a `rel="next"` entry but that
URL has no `cursor` query parameter, the returned `nextCursor` is null. -/
theorem apiGet_cursorless_next_url (token path : String)
    (params : List (String × Option PrimVal)) (net : Nat → HttpResponse)
    (d : JsonVal) (u : String) (hok : respOk (net 0) = true)
    (hj : (net 0).bodyJson = some d)
    (hu : parseLinkHeader (net 0).linkHeader = some u)
    (hnc : getQueryParam u "cursor" = none) :
    (apiGet token path params net).2 = Except.ok { data := d, nextCursor := none } := by
  simp [apiGet, getResult, hok, hj, hu, hnc]

/-- A link header whose next URL carries no cursor parameter. -/
def noCursorHeader : String := "<https://host/v3/jobs?page=2>; rel=\"next\""

/-- A 200 response carrying `noCursorHeader`. -/
def linkNoCursorResp : HttpResponse :=
  { status := 200, statusText := "OK", bodyText := "",
    bodyJson := some (JsonVal.obj []), linkHeader := some noCursorHeader }

/-- A network oracle answering every call with `linkNoCursorResp`. -/
def linkNoCursorNet : Nat → HttpResponse := fun _ => linkNoCursorResp

/-- Claim C10, witness: a next URL with only a `page` parameter yields a null
`nextCursor`. -/
theorem apiGet_cursorless_next_url_witness :
    (apiGet "tok" "/jobs" [] linkNoCursorNet).2
      = Except.ok { data := JsonVal.obj [], nextCursor := none } :=
  apiGet_cursorless_next_url "tok" "/jobs" [] linkNoCursorNet (JsonVal.obj [])
    "https://host/v3/jobs?page=2" (by decide) rfl (by decide) (by decide)
